import Mathlib

/-!
Verification of the statistics aggregation and ranking engine of the
astrbot message-stats plugin.

The development shallowly embeds the relevant parts of `main.py` and
`utils/date_utils.py`.  The repository modules `utils/models.py`,
`utils/data_manager.py` and `utils/validators.py` are not present in the
source tree; the definitions taken from them are modelled from the
specification and are marked as such in their doc comments.
-/

namespace MsgStats

/-! ### Calendar dates

A proleptic-Gregorian calendar date, mirroring Python `datetime.date`
values as used by the plugin (fields `year`, `month`, `day`). -/

structure Date where
  year : Nat
  month : Nat
  day : Nat
deriving DecidableEq, Repr

/-- Gregorian leap-year test, the semantics of Python's `calendar.isleap`
used implicitly by `datetime.date`. -/
def isLeap (y : Nat) : Bool :=
  decide (y % 4 = 0 ∧ (y % 100 ≠ 0 ∨ y % 400 = 0))

/-- Number of days of month `m` in year `y` (Python `calendar.monthrange`). -/
def daysInMonth (y m : Nat) : Nat :=
  match m with
  | 2 => if isLeap y then 29 else 28
  | 4 => 30
  | 6 => 30
  | 9 => 30
  | 11 => 30
  | _ => 31

/-- Number of days in year `y` strictly before month `m`. -/
def daysBeforeMonth (y m : Nat) : Nat :=
  let l : Nat := if isLeap y then 1 else 0
  match m with
  | 1 => 0
  | 2 => 31
  | 3 => 59 + l
  | 4 => 90 + l
  | 5 => 120 + l
  | 6 => 151 + l
  | 7 => 181 + l
  | 8 => 212 + l
  | 9 => 243 + l
  | 10 => 273 + l
  | 11 => 304 + l
  | _ => 334 + l

/-- Number of leap years in `1..y`. -/
def leapsBefore (y : Nat) : Nat :=
  y / 4 - y / 100 + y / 400

/-- Proleptic Gregorian ordinal of a date, the semantics of Python's
`date.toordinal` (`0001-01-01` has ordinal `1`). -/
def Date.toOrdinal (d : Date) : Nat :=
  365 * (d.year - 1) + leapsBefore (d.year - 1) + daysBeforeMonth d.year d.month + d.day

/-- A structurally valid calendar date (what `datetime.date` accepts). -/
def Date.Valid (d : Date) : Prop :=
  1 ≤ d.year ∧ 1 ≤ d.month ∧ d.month ≤ 12 ∧ 1 ≤ d.day ∧ d.day ≤ daysInMonth d.year d.month

instance (d : Date) : Decidable d.Valid := by
  unfold Date.Valid; infer_instance

/-- Strict comparison of dates: Python `date.__lt__`, lexicographic on
`(year, month, day)`. -/
def dateLt (a b : Date) : Prop :=
  a.year < b.year ∨
    (a.year = b.year ∧ (a.month < b.month ∨ (a.month = b.month ∧ a.day < b.day)))

/-- Non-strict comparison of dates: Python `date.__le__`. -/
def dateLe (a b : Date) : Prop :=
  a.year < b.year ∨
    (a.year = b.year ∧ (a.month < b.month ∨ (a.month = b.month ∧ a.day ≤ b.day)))

instance (a b : Date) : Decidable (dateLt a b) := by
  unfold dateLt; infer_instance

instance (a b : Date) : Decidable (dateLe a b) := by
  unfold dateLe; infer_instance

theorem dateLe_refl (a : Date) : dateLe a a := by
  unfold dateLe; omega

theorem dateLe_trans {a b c : Date} (h1 : dateLe a b) (h2 : dateLe b c) : dateLe a c := by
  unfold dateLe at *; omega

theorem not_dateLt {a b : Date} : ¬ dateLt a b ↔ dateLe b a := by
  unfold dateLt dateLe
  constructor
  · intro h
    by_cases hy : a.year = b.year
    · by_cases hm : a.month = b.month
      · right; exact ⟨hy.symm, Or.inr ⟨hm.symm, by omega⟩⟩
      · have hmlt : ¬ a.month < b.month := by intro hc; exact h (Or.inr ⟨hy, Or.inl hc⟩)
        right; exact ⟨hy.symm, Or.inl (by omega)⟩
    · have hylt : ¬ a.year < b.year := by intro hc; exact h (Or.inl hc)
      left; omega
  · intro h hc; omega

theorem dateLt_of_dateLt_of_dateLe {a b c : Date}
    (h1 : dateLt a b) (h2 : dateLe b c) : dateLt a c := by
  unfold dateLt dateLe at *; omega

/-- Python's `date.weekday`: Monday is `0`.  Ordinal `1` (0001-01-01) is a
Monday, and `weekday` is the ordinal shifted so that Mondays map to `0`. -/
def Date.weekday (d : Date) : Nat :=
  (d.toOrdinal + 6) % 7

/-- The calendar day immediately before `d`. -/
def prevDay (d : Date) : Date :=
  if 1 < d.day then ⟨d.year, d.month, d.day - 1⟩
  else if 1 < d.month then ⟨d.year, d.month - 1, daysInMonth d.year (d.month - 1)⟩
  else ⟨d.year - 1, 12, 31⟩

/-- Subtracting `k` days from a date, the semantics of Python's
`d - timedelta(days=k)`. -/
def subDays (d : Date) : Nat → Date
  | 0 => d
  | k + 1 => prevDay (subDays d k)

theorem leapsBefore_succ (n : Nat) :
    leapsBefore (n + 1) = leapsBefore n + (if isLeap (n + 1) then 1 else 0) := by
  unfold leapsBefore isLeap
  rcases Nat.decEq ((n + 1) % 4) 0 with h4 | h4 <;>
    rcases Nat.decEq ((n + 1) % 100) 0 with h100 | h100 <;>
      rcases Nat.decEq ((n + 1) % 400) 0 with h400 | h400 <;>
        simp only [decide_eq_true_eq] <;> split <;> omega

theorem daysInMonth_pos (y m : Nat) : 1 ≤ daysInMonth y m := by
  unfold daysInMonth
  split <;> first
    | omega
    | (split <;> omega)

theorem daysBeforeMonth_step (y : Nat) (m : Nat) (h2 : 2 ≤ m) (h12 : m ≤ 12) :
    daysBeforeMonth y (m - 1) + daysInMonth y (m - 1) = daysBeforeMonth y m := by
  interval_cases m <;>
    simp only [daysBeforeMonth, daysInMonth] <;> split <;> omega

theorem prevDay_valid_toOrdinal (d : Date) (hv : d.Valid) (h1 : 1 < d.toOrdinal) :
    (prevDay d).Valid ∧ (prevDay d).toOrdinal + 1 = d.toOrdinal := by
  obtain ⟨hy, hm1, hm2, hd1, hd2⟩ := hv
  unfold prevDay
  by_cases hd : 1 < d.day
  · simp only [hd, if_true]
    constructor
    · unfold Date.Valid
      dsimp only
      omega
    · unfold Date.toOrdinal
      dsimp only
      omega
  · simp only [hd, if_false]
    have hday : d.day = 1 := by omega
    by_cases hm : 1 < d.month
    · simp only [hm, if_true]
      have hdim : 1 ≤ daysInMonth d.year (d.month - 1) := daysInMonth_pos _ _
      have key : daysBeforeMonth d.year (d.month - 1) + daysInMonth d.year (d.month - 1)
          = daysBeforeMonth d.year d.month := daysBeforeMonth_step _ _ hm hm2
      constructor
      · unfold Date.Valid
        dsimp only
        omega
      · unfold Date.toOrdinal
        dsimp only
        omega
    · simp only [hm, if_false]
      have hmon : d.month = 1 := by omega
      have hy2 : 2 ≤ d.year := by
        rcases Nat.lt_or_ge d.year 2 with h | h
        · exfalso
          have hy1 : d.year = 1 := by omega
          unfold Date.toOrdinal at h1
          rw [hy1, hmon, hday] at h1
          simp [leapsBefore, daysBeforeMonth] at h1
        · exact h
      have hd12 : daysInMonth (d.year - 1) 12 = 31 := rfl
      constructor
      · unfold Date.Valid
        dsimp only
        omega
      · have hls : leapsBefore (d.year - 1)
            = leapsBefore (d.year - 2) + (if isLeap (d.year - 1) then 1 else 0) := by
          have hstep := leapsBefore_succ (d.year - 2)
          have he : d.year - 2 + 1 = d.year - 1 := by omega
          rw [he] at hstep
          exact hstep
        have hdb12 : daysBeforeMonth (d.year - 1) 12
            = 334 + (if isLeap (d.year - 1) then 1 else 0) := rfl
        have hdb1 : daysBeforeMonth d.year 1 = 0 := rfl
        unfold Date.toOrdinal
        dsimp only
        rw [hmon, hday, hdb12, hdb1]
        have he2 : d.year - 1 - 1 = d.year - 2 := by omega
        rw [he2]
        cases hil : isLeap (d.year - 1) <;> simp [hil] at hls ⊢ <;> omega

theorem subDays_valid_toOrdinal (d : Date) (hv : d.Valid) :
    ∀ k : Nat, k < d.toOrdinal →
      (subDays d k).Valid ∧ (subDays d k).toOrdinal = d.toOrdinal - k := by
  intro k
  induction k with
  | zero => intro _; exact ⟨hv, rfl⟩
  | succ n ih =>
    intro hlt
    have hn : n < d.toOrdinal := by omega
    obtain ⟨hval, hord⟩ := ih hn
    have h1 : 1 < (subDays d n).toOrdinal := by omega
    obtain ⟨hval', hord'⟩ := prevDay_valid_toOrdinal _ hval h1
    exact ⟨hval', by simp only [subDays]; omega⟩

/-! ### Data model (modelled from the spec where `utils/models.py` is absent) -/

/-- Modelled from the spec: `utils/models.py` is not in the source tree.
Per §3 a history entry is a day bucket `(date, count)` — "one entry per
calendar day on which the user spoke, holding that day's message count" —
and `main.py` accesses the entry's calendar date through `to_date()`. -/
structure MessageDate where
  year : Nat
  month : Nat
  day : Nat
  count : Nat
deriving DecidableEq, Repr

/-- The calendar date of a history bucket (`MessageDate.to_date`). -/
def MessageDate.toDate (b : MessageDate) : Date :=
  ⟨b.year, b.month, b.day⟩

/-- Modelled from the spec: `UserData` lives in the absent `utils/models.py`.
Fields are the ones §3 lists and `main.py` reads: `user_id`, `nickname`,
`message_count`, `history`, `roles`. -/
structure UserData where
  user_id : String
  nickname : String
  message_count : Nat
  history : List MessageDate
  roles : List Int
deriving DecidableEq, Repr

/-- Modelled from the spec: `UserData.get_message_count_in_period` lives in
the absent `utils/models.py`.  Per §4.1 it is the "sum of bucket counts
whose date lies in `[start_date, end_date]` inclusive" and "returns 0 for
empty/absent history". -/
def get_message_count_in_period (history : List MessageDate) (s e : Date) : Nat :=
  (history.map (fun b => if dateLe s b.toDate ∧ dateLe b.toDate e then b.count else 0)).sum

/-- The closed rank-type enumeration (spec §4.2/§9; the `RankType` enum of
the absent `utils/models.py`, whose six members `main.py` dispatches on). -/
inductive RankType where
  | TOTAL
  | DAILY
  | WEEKLY
  | MONTHLY
  | YEARLY
  | LAST_YEAR
deriving DecidableEq, Repr

/-! ### Period aggregator (`main.py`) -/

/-- Embeds `_count_messages_in_period_unordered` (main.py 1768-1780): one
pass over every entry, adding 1 for each entry whose date lies in
`[start_date, end_date]`. -/
def count_messages_in_period_unordered (history : List MessageDate) (s e : Date) : Nat :=
  history.countP (fun b => decide (dateLe s b.toDate ∧ dateLe b.toDate e))

/-- The adjacent-pair sortedness scan of `_count_messages_in_period_fast`
(main.py 1731-1745): sorted iff no adjacent pair has `current > next`. -/
def historySorted : List MessageDate → Bool
  | [] => true
  | [_] => true
  | a :: b :: t => !(decide (dateLt b.toDate a.toDate)) && historySorted (b :: t)

/-- The early-stopping scan of `_count_messages_in_period_fast`
(main.py 1748-1762): skip entries before `start`, stop at the first entry
past `end`, add 1 for each entry in the window. -/
def fastScan (s e : Date) : List MessageDate → Nat
  | [] => 0
  | b :: t =>
    if dateLt b.toDate s then fastScan s e t
    else if dateLt e b.toDate then 0
    else fastScan s e t + 1

/-- Embeds `_count_messages_in_period_fast` (main.py 1721-1766): return 0
for empty history; use the early-stopping scan when the full adjacent-pair
check confirms sortedness; otherwise fall back to the unordered scan.
(The `except` arm for incomparable dates cannot fire in this typed model.) -/
def count_messages_in_period_fast (history : List MessageDate) (s e : Date) : Nat :=
  if history = [] then 0
  else if historySorted history then fastScan s e history
  else count_messages_in_period_unordered history s e

theorem historySorted_tail {b : MessageDate} {t : List MessageDate}
    (h : historySorted (b :: t) = true) : historySorted t = true := by
  cases t with
  | nil => rfl
  | cons c t' =>
    simp only [historySorted, Bool.and_eq_true] at h
    exact h.2

theorem historySorted_head_le {b : MessageDate} {t : List MessageDate}
    (h : historySorted (b :: t) = true) :
    ∀ x ∈ t, dateLe b.toDate x.toDate := by
  induction t generalizing b with
  | nil => intro x hx; cases hx
  | cons c t' ih =>
    intro x hx
    simp only [historySorted, Bool.and_eq_true, Bool.not_eq_true',
      decide_eq_false_iff_not] at h
    have hbc : dateLe b.toDate c.toDate := not_dateLt.mp h.1
    rcases List.mem_cons.mp hx with rfl | hx'
    · exact hbc
    · exact dateLe_trans hbc (ih h.2 x hx')

theorem fastScan_eq_countP (s e : Date) (l : List MessageDate)
    (hs : historySorted l = true) :
    fastScan s e l = count_messages_in_period_unordered l s e := by
  induction l with
  | nil => rfl
  | cons b t ih =>
    have ht := historySorted_tail hs
    unfold fastScan count_messages_in_period_unordered
    by_cases h1 : dateLt b.toDate s
    · have hb : ¬ (dateLe s b.toDate ∧ dateLe b.toDate e) := by
        intro hc
        exact absurd h1 (not_dateLt.mpr hc.1)
      simp only [h1, if_true, List.countP_cons, decide_eq_true_eq]
      rw [ih ht]
      simp [count_messages_in_period_unordered, hb]
    · by_cases h2 : dateLt e b.toDate
      · have hall : ∀ x ∈ b :: t, ¬ (dateLe s x.toDate ∧ dateLe x.toDate e) := by
          intro x hx hc

          rcases List.mem_cons.mp hx with rfl | hx'
          · exact absurd h2 (not_dateLt.mpr hc.2)
          · have hbx : dateLe b.toDate x.toDate := historySorted_head_le hs x hx'
            have : dateLt e x.toDate := dateLt_of_dateLt_of_dateLe h2 hbx
            exact absurd this (not_dateLt.mpr hc.2)
        simp only [h1, if_false, h2, if_true]
        rw [eq_comm, List.countP_eq_zero]
        intro x hx
        simp only [decide_eq_true_eq]
        exact hall x hx
      · have hb : dateLe s b.toDate ∧ dateLe b.toDate e :=
          ⟨not_dateLt.mp h1, not_dateLt.mp h2⟩
        simp only [h1, if_false, h2, List.countP_cons, decide_eq_true_eq]
        rw [ih ht]
        simp [count_messages_in_period_unordered, hb]

/-- C2: for every history list and window, the optimized sorted fast path
with early stop and the exhaustive unordered scan return the same total,
and the period count is invariant under any permutation of the history. -/
theorem claim_C2_fast_unordered_agree (h h' : List MessageDate) (s e : Date) :
    count_messages_in_period_fast h s e = count_messages_in_period_unordered h s e
    ∧ (h.Perm h' →
        count_messages_in_period_fast h s e = count_messages_in_period_fast h' s e) := by
  have base : ∀ l : List MessageDate,
      count_messages_in_period_fast l s e = count_messages_in_period_unordered l s e := by
    intro l
    unfold count_messages_in_period_fast
    by_cases hnil : l = []
    · subst hnil; rfl
    · rw [if_neg hnil]
      by_cases hs : historySorted l = true
      · rw [if_pos hs]
        exact fastScan_eq_countP s e l hs
      · rw [if_neg hs]
  refine ⟨base h, ?_⟩
  intro hperm
  rw [base h, base h']
  unfold count_messages_in_period_unordered
  exact hperm.countP_eq _

/-- Witness for C2 at a concrete input: swapping the two buckets of a
two-entry history leaves the fast count unchanged, and the fast count
agrees with the unordered count there. -/
theorem claim_C2_fast_unordered_agree_witness :
    count_messages_in_period_fast
        [⟨2024, 1, 10, 1⟩, ⟨2024, 1, 11, 2⟩] ⟨2024, 1, 10⟩ ⟨2024, 1, 12⟩
      = count_messages_in_period_fast
        [⟨2024, 1, 11, 2⟩, ⟨2024, 1, 10, 1⟩] ⟨2024, 1, 10⟩ ⟨2024, 1, 12⟩
    ∧ count_messages_in_period_fast
        [⟨2024, 1, 10, 1⟩, ⟨2024, 1, 11, 2⟩] ⟨2024, 1, 10⟩ ⟨2024, 1, 12⟩
      = count_messages_in_period_unordered
        [⟨2024, 1, 10, 1⟩, ⟨2024, 1, 11, 2⟩] ⟨2024, 1, 10⟩ ⟨2024, 1, 12⟩ :=
  ⟨(claim_C2_fast_unordered_agree
      [⟨2024, 1, 10, 1⟩, ⟨2024, 1, 11, 2⟩] [⟨2024, 1, 11, 2⟩, ⟨2024, 1, 10, 1⟩]
      ⟨2024, 1, 10⟩ ⟨2024, 1, 12⟩).2
    (List.Perm.swap (⟨2024, 1, 11, 2⟩ : MessageDate) (⟨2024, 1, 10, 1⟩ : MessageDate) []),
   (claim_C2_fast_unordered_agree
      [⟨2024, 1, 10, 1⟩, ⟨2024, 1, 11, 2⟩] [⟨2024, 1, 11, 2⟩, ⟨2024, 1, 10, 1⟩]
      ⟨2024, 1, 10⟩ ⟨2024, 1, 12⟩).1⟩

/-- C1 (code bug evaluation): on the single-bucket history whose day bucket
holds 5 messages, the single-day window over that very day makes both
`_count_messages_in_period_fast` and `_count_messages_in_period_unordered`
return 1 — the number of in-window entries — while the model-level
`get_message_count_in_period` (used by the DAILY rank) returns the day's
bucket value 5, as the claim requires. -/
theorem claim_C1_period_count_bug_eval :
    count_messages_in_period_fast [⟨2024, 1, 10, 5⟩] ⟨2024, 1, 10⟩ ⟨2024, 1, 10⟩ = 1
    ∧ count_messages_in_period_unordered [⟨2024, 1, 10, 5⟩] ⟨2024, 1, 10⟩ ⟨2024, 1, 10⟩ = 1
    ∧ get_message_count_in_period [⟨2024, 1, 10, 5⟩] ⟨2024, 1, 10⟩ ⟨2024, 1, 10⟩ = 5 := by
  decide

/-! ### Time-window resolver -/

/-- Embeds `get_week_start` (utils/date_utils.py 28-47):
`date_obj - timedelta(days=date_obj.weekday())`. -/
def get_week_start (d : Date) : Date :=
  subDays d d.weekday

/-- Embeds `_get_time_period_for_rank_type` (main.py 1620-1656),
parameterised by the injected current date (`datetime.now().date()` in the
source).  Returns `(start_date, end_date, period_name)` with `none` for the
unfiltered TOTAL rank.  The source's trailing `else` arm for unknown rank
types is unreachable over the closed six-member enumeration. -/
def get_time_period_for_rank_type (today : Date) (rt : RankType) :
    Option Date × Option Date × String :=
  match rt with
  | .TOTAL => (none, none, "total")
  | .DAILY => (some today, some today, "daily")
  | .WEEKLY => (some (subDays today today.weekday), some today, "weekly")
  | .MONTHLY => (some ⟨today.year, today.month, 1⟩, some today, "monthly")
  | .YEARLY => (some ⟨today.year, 1, 1⟩, some today, "yearly")
  | .LAST_YEAR => (some ⟨today.year - 1, 1, 1⟩, some ⟨today.year - 1, 12, 31⟩, "lastyear")

/-- Sanity check of the embedding against the spec's §8 example:
2024-01-17 is a Wednesday whose week starts on Monday 2024-01-15. -/
theorem week_start_example_2024_01_17 :
    get_week_start ⟨2024, 1, 17⟩ = ⟨2024, 1, 15⟩
    ∧ Date.weekday ⟨2024, 1, 15⟩ = 0 := by
  decide

/-- C3: for every (valid) date `today`, the resolver maps TOTAL to no
window, DAILY to `[today, today]`, WEEKLY to `[m, today]` where `m` is the
most recent Monday `≤ today` (weekday 0, at most 6 days back, and no later
Monday fits), MONTHLY to `[first of month, today]`, YEARLY to
`[Jan 1, today]`, and LAST_YEAR to `[Jan 1, Dec 31]` of the previous year. -/
theorem claim_C3_window_resolver (today : Date) (hv : today.Valid)
    (h8 : 8 ≤ today.toOrdinal) :
    get_time_period_for_rank_type today RankType.TOTAL = (none, none, "total")
    ∧ get_time_period_for_rank_type today RankType.DAILY
        = (some today, some today, "daily")
    ∧ (get_time_period_for_rank_type today RankType.WEEKLY
          = (some (get_week_start today), some today, "weekly")
        ∧ (get_week_start today).Valid
        ∧ (get_week_start today).weekday = 0
        ∧ (get_week_start today).toOrdinal ≤ today.toOrdinal
        ∧ today.toOrdinal < (get_week_start today).toOrdinal + 7
        ∧ ∀ d : Date, d.weekday = 0 → d.toOrdinal ≤ today.toOrdinal →
            d.toOrdinal ≤ (get_week_start today).toOrdinal)
    ∧ get_time_period_for_rank_type today RankType.MONTHLY
        = (some ⟨today.year, today.month, 1⟩, some today, "monthly")
    ∧ get_time_period_for_rank_type today RankType.YEARLY
        = (some ⟨today.year, 1, 1⟩, some today, "yearly")
    ∧ get_time_period_for_rank_type today RankType.LAST_YEAR
        = (some ⟨today.year - 1, 1, 1⟩, some ⟨today.year - 1, 12, 31⟩, "lastyear") := by
  have hlt : today.weekday < today.toOrdinal := by
    unfold Date.weekday
    omega
  obtain ⟨hvws, hows⟩ := subDays_valid_toOrdinal today hv today.weekday hlt
  refine ⟨rfl, rfl, ⟨rfl, hvws, ?_, ?_, ?_, ?_⟩, rfl, rfl, rfl⟩
  · unfold get_week_start Date.weekday
    unfold Date.weekday at hows
    rw [hows]
    omega
  · unfold get_week_start
    rw [hows]
    omega
  · unfold get_week_start
    rw [hows]
    unfold Date.weekday
    omega
  · intro d h0 hle
    unfold get_week_start
    rw [hows]
    unfold Date.weekday at h0 ⊢
    omega

/-- Witness for C3 at the concrete date 2024-01-17 of the spec's example. -/
theorem claim_C3_window_resolver_witness :
    Date.Valid ⟨2024, 1, 17⟩
    ∧ get_time_period_for_rank_type ⟨2024, 1, 17⟩ RankType.WEEKLY
        = (some (get_week_start ⟨2024, 1, 17⟩), some ⟨2024, 1, 17⟩, "weekly") :=
  ⟨by decide,
   ((claim_C3_window_resolver ⟨2024, 1, 17⟩ (by decide) (by decide)).2.2).1.1⟩

/-! ### Ranking engine (`main.py`) -/

/-- Embeds `_is_blocked_user` (main.py 1219-1239): membership of the
(stringified) user id in the configured blocked-users list; a missing
config or empty list blocks nobody. -/
def is_blocked_user (blocked : List String) (uid : String) : Bool :=
  blocked.contains uid

/-- Embeds `_calculate_daily_rank` (main.py 1680-1697): skip blocked users
and users with empty history, evaluate `user.get_message_count_in_period`
over the window, and keep `(user, period_count)` when the count is
positive.  (The source binds `period_count` once; it is inlined here.) -/
def calculate_daily_rank (blocked : List String) (gd : List UserData) (s e : Date) :
    List (UserData × Nat) :=
  gd.filterMap (fun u =>
    if is_blocked_user blocked u.user_id then none
    else if u.history = [] then none
    else if 0 < get_message_count_in_period u.history s e
    then some (u, get_message_count_in_period u.history s e)
    else none)

/-- Embeds `_calculate_period_rank_optimized` (main.py 1699-1719): keep
users with non-empty history, skip blocked users, evaluate
`_count_messages_in_period_fast` over the window, keep positive counts. -/
def calculate_period_rank_optimized (blocked : List String) (gd : List UserData)
    (s e : Date) : List (UserData × Nat) :=
  (gd.filter (fun u => !u.history.isEmpty)).filterMap (fun u =>
    if is_blocked_user blocked u.user_id then none
    else if 0 < count_messages_in_period_fast u.history s e
    then some (u, count_messages_in_period_fast u.history s e)
    else none)

/-- Embeds `_filter_data_by_rank_type` (main.py 1658-1678): TOTAL keeps
`(user, message_count)` for non-blocked users with a positive lifetime
count; DAILY dispatches to the direct daily calculation; the other four
types dispatch to the optimized period calculation, both over the window
resolved by `_get_time_period_for_rank_type`. -/
def filter_data_by_rank_type (blocked : List String) (today : Date)
    (gd : List UserData) (rt : RankType) : List (UserData × Nat) :=
  match rt with
  | .TOTAL =>
    gd.filterMap (fun u =>
      if 0 < u.message_count ∧ is_blocked_user blocked u.user_id = false
      then some (u, u.message_count) else none)
  | .DAILY =>
    match get_time_period_for_rank_type today RankType.DAILY with
    | (some s, some e, _) => calculate_daily_rank blocked gd s e
    | _ => []
  | rt' =>
    match get_time_period_for_rank_type today rt' with
    | (some s, some e, _) => calculate_period_rank_optimized blocked gd s e
    | _ => []

/-- The per-user sort value the code attaches for each rank type: the
lifetime count for TOTAL, the model-level period sum over `[today, today]`
for DAILY, and the fast period count over the resolved window for the
remaining types. -/
def rank_value (today : Date) (rt : RankType) (u : UserData) : Nat :=
  match rt with
  | .TOTAL => u.message_count
  | .DAILY => get_message_count_in_period u.history today today
  | .WEEKLY => count_messages_in_period_fast u.history (subDays today today.weekday) today
  | .MONTHLY => count_messages_in_period_fast u.history ⟨today.year, today.month, 1⟩ today
  | .YEARLY => count_messages_in_period_fast u.history ⟨today.year, 1, 1⟩ today
  | .LAST_YEAR =>
    count_messages_in_period_fast u.history ⟨today.year - 1, 1, 1⟩ ⟨today.year - 1, 12, 31⟩

theorem mem_calculate_daily_rank {blocked : List String} {gd : List UserData}
    {s e : Date} {p : UserData × Nat}
    (h : p ∈ calculate_daily_rank blocked gd s e) :
    p.1 ∈ gd ∧ p.1.history ≠ [] ∧ 0 < p.2
    ∧ p.2 = get_message_count_in_period p.1.history s e := by
  unfold calculate_daily_rank at h
  rcases List.mem_filterMap.mp h with ⟨a, ha, hsome⟩
  split_ifs at hsome with h1 h2 h3
  have hp := Option.some.inj hsome
  subst hp
  exact ⟨ha, h2, h3, rfl⟩

theorem mem_calculate_period_rank_optimized {blocked : List String}
    {gd : List UserData} {s e : Date} {p : UserData × Nat}
    (h : p ∈ calculate_period_rank_optimized blocked gd s e) :
    p.1 ∈ gd ∧ p.1.history ≠ [] ∧ 0 < p.2
    ∧ p.2 = count_messages_in_period_fast p.1.history s e := by
  unfold calculate_period_rank_optimized at h
  rcases List.mem_filterMap.mp h with ⟨a, ha, hsome⟩
  have ha' := List.mem_filter.mp ha
  have hhist : a.history ≠ [] := by
    have := ha'.2
    simp only [Bool.not_eq_true', List.isEmpty_eq_false] at this
    simpa using this
  split_ifs at hsome with h1 h3
  have hp := Option.some.inj hsome
  subst hp
  exact ⟨ha'.1, hhist, h3, rfl⟩

theorem mem_total_rank {blocked : List String} {gd : List UserData}
    {p : UserData × Nat}
    (h : p ∈ filter_data_by_rank_type blocked ⟨1, 1, 1⟩ gd RankType.TOTAL) :
    p.1 ∈ gd ∧ 0 < p.1.message_count ∧ p.2 = p.1.message_count := by
  unfold filter_data_by_rank_type at h
  rcases List.mem_filterMap.mp h with ⟨a, ha, hsome⟩
  split_ifs at hsome with h1
  have hp := Option.some.inj hsome
  subst hp
  exact ⟨ha, h1.1, rfl⟩

/-- C4: every pair the ranking filter emits carries a strictly positive
value equal to the code's per-type sort value, and a zero-activity user
(zero lifetime count and empty history) never appears under any rank type,
TOTAL included. -/
theorem claim_C4_value_extraction (blocked : List String) (today : Date)
    (gd : List UserData) (rt : RankType) :
    (∀ p ∈ filter_data_by_rank_type blocked today gd rt,
        0 < p.2 ∧ p.2 = rank_value today rt p.1)
    ∧ ∀ u : UserData, u.message_count = 0 → u.history = [] →
        ∀ v : Nat, (u, v) ∉ filter_data_by_rank_type blocked today gd rt := by
  constructor
  · intro p hp
    cases rt with
    | TOTAL =>
      replace hp : p ∈ filter_data_by_rank_type blocked ⟨1, 1, 1⟩ gd RankType.TOTAL := hp
      obtain ⟨_, hpos, hval⟩ := mem_total_rank hp
      exact ⟨by omega, hval⟩
    | DAILY =>
      replace hp : p ∈ calculate_daily_rank blocked gd today today := hp
      obtain ⟨_, _, hpos, hval⟩ := mem_calculate_daily_rank hp
      exact ⟨hpos, hval⟩
    | WEEKLY =>
      replace hp : p ∈ calculate_period_rank_optimized blocked gd
          (subDays today today.weekday) today := hp
      obtain ⟨_, _, hpos, hval⟩ := mem_calculate_period_rank_optimized hp
      exact ⟨hpos, hval⟩
    | MONTHLY =>
      replace hp : p ∈ calculate_period_rank_optimized blocked gd
          ⟨today.year, today.month, 1⟩ today := hp
      obtain ⟨_, _, hpos, hval⟩ := mem_calculate_period_rank_optimized hp
      exact ⟨hpos, hval⟩
    | YEARLY =>
      replace hp : p ∈ calculate_period_rank_optimized blocked gd
          ⟨today.year, 1, 1⟩ today := hp
      obtain ⟨_, _, hpos, hval⟩ := mem_calculate_period_rank_optimized hp
      exact ⟨hpos, hval⟩
    | LAST_YEAR =>
      replace hp : p ∈ calculate_period_rank_optimized blocked gd
          ⟨today.year - 1, 1, 1⟩ ⟨today.year - 1, 12, 31⟩ := hp
      obtain ⟨_, _, hpos, hval⟩ := mem_calculate_period_rank_optimized hp
      exact ⟨hpos, hval⟩
  · intro u hmc hhist v hmem
    cases rt with
    | TOTAL =>
      replace hmem : (u, v) ∈ filter_data_by_rank_type blocked ⟨1, 1, 1⟩ gd RankType.TOTAL :=
        hmem
      obtain ⟨_, hpos, _⟩ := mem_total_rank hmem
      simp only at hpos
      omega
    | DAILY =>
      replace hmem : (u, v) ∈ calculate_daily_rank blocked gd today today := hmem
      obtain ⟨_, hne, _, _⟩ := mem_calculate_daily_rank hmem
      exact hne hhist
    | WEEKLY =>
      replace hmem : (u, v) ∈ calculate_period_rank_optimized blocked gd
          (subDays today today.weekday) today := hmem
      obtain ⟨_, hne, _, _⟩ := mem_calculate_period_rank_optimized hmem
      exact hne hhist
    | MONTHLY =>
      replace hmem : (u, v) ∈ calculate_period_rank_optimized blocked gd
          ⟨today.year, today.month, 1⟩ today := hmem
      obtain ⟨_, hne, _, _⟩ := mem_calculate_period_rank_optimized hmem
      exact hne hhist
    | YEARLY =>
      replace hmem : (u, v) ∈ calculate_period_rank_optimized blocked gd
          ⟨today.year, 1, 1⟩ today := hmem
      obtain ⟨_, hne, _, _⟩ := mem_calculate_period_rank_optimized hmem
      exact hne hhist
    | LAST_YEAR =>
      replace hmem : (u, v) ∈ calculate_period_rank_optimized blocked gd
          ⟨today.year - 1, 1, 1⟩ ⟨today.year - 1, 12, 31⟩ := hmem
      obtain ⟨_, hne, _, _⟩ := mem_calculate_period_rank_optimized hmem
      exact hne hhist

/-- Witness for C4 at a concrete group: user A (5 lifetime messages, 2 on
2024-01-15) appears in the TOTAL rank with positive value 5, while the
zero-activity user B never appears. -/
theorem claim_C4_value_extraction_witness :
    (0 < (5 : Nat)
      ∧ (5 : Nat) = rank_value ⟨2024, 1, 15⟩ RankType.TOTAL
          ⟨"1", "A", 5, [⟨2024, 1, 15, 2⟩], []⟩)
    ∧ (⟨"2", "B", 0, [], []⟩, 3) ∉ filter_data_by_rank_type [] ⟨2024, 1, 15⟩
        [⟨"1", "A", 5, [⟨2024, 1, 15, 2⟩], []⟩, ⟨"2", "B", 0, [], []⟩] RankType.TOTAL :=
  ⟨(claim_C4_value_extraction [] ⟨2024, 1, 15⟩
      [⟨"1", "A", 5, [⟨2024, 1, 15, 2⟩], []⟩, ⟨"2", "B", 0, [], []⟩] RankType.TOTAL).1
      (⟨"1", "A", 5, [⟨2024, 1, 15, 2⟩], []⟩, 5) (by decide),
   (claim_C4_value_extraction [] ⟨2024, 1, 15⟩
      [⟨"1", "A", 5, [⟨2024, 1, 15, 2⟩], []⟩, ⟨"2", "B", 0, [], []⟩] RankType.TOTAL).2
      ⟨"2", "B", 0, [], []⟩ rfl rfl 3⟩

/-! ### Descending stable sort and role filter of `_prepare_rank_data` -/

/-- Embeds the sort of `_prepare_rank_data` (main.py 1497):
`sorted(filtered_data_with_values, key=lambda x: x[1], reverse=True)`.
Python's `sorted` is a stable sort, and with `reverse=True` it orders keys
descending while still preserving the input order of equal keys; it is
modelled by the stable `List.mergeSort` with the comparator that lets `a`
precede `b` exactly when `b.2 ≤ a.2`. -/
def sort_by_value_desc (l : List (UserData × Nat)) : List (UserData × Nat) :=
  l.mergeSort (fun a b => decide (b.2 ≤ a.2))

/-- C5: the rank sort outputs a permutation of its input ordered descending
by value, and it is stable — for every value `v`, the sublist of pairs with
value `v` is exactly the input's sublist of pairs with value `v`, in the
input's order (no secondary sort key). -/
theorem claim_C5_sort_desc_stable (l : List (UserData × Nat)) :
    (sort_by_value_desc l).Perm l
    ∧ (sort_by_value_desc l).Pairwise (fun a b => b.2 ≤ a.2)
    ∧ ∀ v : Nat, (sort_by_value_desc l).filter (fun p => decide (p.2 = v))
        = l.filter (fun p => decide (p.2 = v)) := by
  have htrans : ∀ a b c : UserData × Nat,
      (fun a b : UserData × Nat => decide (b.2 ≤ a.2)) a b = true →
      (fun a b : UserData × Nat => decide (b.2 ≤ a.2)) b c = true →
      (fun a b : UserData × Nat => decide (b.2 ≤ a.2)) a c = true := by
    intro a b c hab hbc
    simp only [decide_eq_true_eq] at *
    omega
  have htotal : ∀ a b : UserData × Nat,
      ((fun a b : UserData × Nat => decide (b.2 ≤ a.2)) a b
        || (fun a b : UserData × Nat => decide (b.2 ≤ a.2)) b a) = true := by
    intro a b
    simp only [Bool.or_eq_true, decide_eq_true_eq]
    omega
  refine ⟨List.mergeSort_perm l _, ?_, ?_⟩
  · have hs := List.sorted_mergeSort htrans htotal l
    exact hs.imp (fun h => by simpa using h)
  · intro v
    set p : UserData × Nat → Bool := fun q => decide (q.2 = v) with hp
    have hmemS : ∀ q ∈ l.filter p, p q = true := fun q hq => (List.mem_filter.mp hq).2
    have hpairS : (l.filter p).Pairwise
        (fun a b : UserData × Nat => decide (b.2 ≤ a.2) = true) := by
      apply List.pairwise_of_forall_mem_list
      intro a ha b hb
      have hav := hmemS a ha
      have hbv := hmemS b hb
      simp only [hp, decide_eq_true_eq] at hav hbv
      simp only [decide_eq_true_eq]
      omega
    have hsub : List.Sublist (l.filter p) (sort_by_value_desc l) :=
      List.sublist_mergeSort htrans htotal hpairS (List.filter_sublist l)
    have hself : (l.filter p).filter p = l.filter p :=
      List.filter_eq_self.mpr hmemS
    have hsub2 : List.Sublist (l.filter p) ((sort_by_value_desc l).filter p) := by
      rw [← hself]
      exact List.Sublist.filter p hsub
    have hperm : ((sort_by_value_desc l).filter p).Perm (l.filter p) :=
      List.Perm.filter p (List.mergeSort_perm l _)
    exact (List.Sublist.eq_of_length hsub2 hperm.length_eq.symm).symm

/-- Embeds the role-filter predicate of `_prepare_rank_data` (main.py
1482-1483): a user is kept when any requested role id occurs in the user's
`roles`. -/
def roles_filter_keep (rf : List Int) (u : UserData) : Bool :=
  rf.any (fun r => u.roles.contains r)

/-- C6: for every non-empty role filter, the ranking's role filter keeps
exactly the users whose `roles` intersect the filter — OR semantics: one
shared role id suffices, and users sharing no id are dropped. -/
theorem claim_C6_role_filter_or (rf : List Int) (gd : List UserData) (u : UserData)
    (hrf : rf ≠ []) :
    u ∈ gd.filter (roles_filter_keep rf) ↔ u ∈ gd ∧ ∃ r ∈ rf, r ∈ u.roles := by
  unfold roles_filter_keep
  simp [List.mem_filter, List.any_eq_true]

/-- Witness for C6: the spec's example — a user with roles `{1, 2}` is kept
by the filter `{2, 3}`. -/
theorem claim_C6_role_filter_or_witness :
    (⟨"1", "u1", 1, [], [1, 2]⟩ : UserData) ∈
      [(⟨"1", "u1", 1, [], [1, 2]⟩ : UserData)].filter (roles_filter_keep [2, 3]) :=
  (claim_C6_role_filter_or [2, 3] [⟨"1", "u1", 1, [], [1, 2]⟩]
      ⟨"1", "u1", 1, [], [1, 2]⟩ (by decide)).mpr
    ⟨by decide, ⟨2, by decide, by decide⟩⟩

/-! ### Member data and nickname reconciliation -/

/-- A platform member-list entry `{user_id, card?, nickname?}` (spec §6).
Absent or empty (falsy) string fields are modelled as `""`. -/
structure Member where
  user_id : String
  card : String
  nickname : String
deriving DecidableEq, Repr

/-- Embeds `_get_display_name_from_member` (main.py 1066-1077):
`member.get("card") or member.get("nickname")` — the card if it is truthy,
otherwise the nickname (possibly `""`, i.e. no display name). -/
def get_display_name_from_member (m : Member) : String :=
  if m.card ≠ "" then m.card else m.nickname

/-- Lookup in the members dictionary built by the comprehension
`{str(m.get("user_id", "")): m for m in members_info if m.get("user_id")}`
(main.py 1524): members with falsy ids are skipped, and later duplicates
overwrite earlier ones, so the lookup yields the last matching member. -/
def members_dict_find (members : List Member) (uid : String) : Option Member :=
  members.reverse.find? (fun m => decide (m.user_id ≠ "") && decide (m.user_id = uid))

/-- The per-user nickname reconciliation step of
`_refresh_nickname_cache_for_ranking` (main.py 1529-1545): when the member
dictionary has the user and carries a truthy display name different from
the stored nickname, overwrite the nickname; otherwise leave the record
alone. -/
def refresh_user_nickname (members : List Member) (u : UserData) : UserData :=
  match members_dict_find members u.user_id with
  | some m =>
    if get_display_name_from_member m ≠ "" ∧ u.nickname ≠ get_display_name_from_member m
    then { u with nickname := get_display_name_from_member m }
    else u
  | none => u

/-- Embeds `_refresh_nickname_cache_for_ranking` (main.py 1514-1554) as a
state-passing function: given the fetched member list (`none` models a
failed fetch; an empty list is falsy and also returns untouched), it
returns the updated user records together with `updated_count`.  The
TTL-cache population and the save triggered by a positive `updated_count`
are side effects on external stores that do not alter user records. -/
def refresh_nickname_cache_for_ranking (membersInfo : Option (List Member))
    (gd : List UserData) : List UserData × Nat :=
  match membersInfo with
  | none => (gd, 0)
  | some members =>
    if members = [] then (gd, 0)
    else
      (gd.map (refresh_user_nickname members),
       gd.countP (fun u => decide (refresh_user_nickname members u ≠ u)))

/-- The user-id-to-latest-nickname map built by the refresh command
`refresh_group_members_cache` (main.py 954-962): only truthy ids with
truthy display names are recorded, later members overwrite earlier ones. -/
def member_nickname_map_find (members : List Member) (uid : String) : Option String :=
  ((members.filterMap (fun m =>
      if m.user_id = "" then none
      else if get_display_name_from_member m = "" then none
      else some (m.user_id, get_display_name_from_member m))).reverse.find?
    (fun p => decide (p.1 = uid))).map (fun p => p.2)

/-- The per-user nickname update of `refresh_group_members_cache`
(main.py 964-973): overwrite the nickname when the map has a different
one. -/
def refresh_user_nickname_cmd (members : List Member) (u : UserData) : UserData :=
  match member_nickname_map_find members u.user_id with
  | some dn => if u.nickname ≠ dn then { u with nickname := dn } else u
  | none => u

/-- The record-reconciliation core of `refresh_group_members_cache`
(main.py 947-978), state-passing like the ranking refresh. -/
def refresh_group_members_cache_records (membersInfo : Option (List Member))
    (gd : List UserData) : List UserData × Nat :=
  match membersInfo with
  | none => (gd, 0)
  | some members =>
    if members = [] then (gd, 0)
    else
      (gd.map (refresh_user_nickname_cmd members),
       gd.countP (fun u => decide (refresh_user_nickname_cmd members u ≠ u)))

theorem refresh_user_nickname_frame (members : List Member) (u : UserData) :
    (refresh_user_nickname members u).user_id = u.user_id
    ∧ (refresh_user_nickname members u).message_count = u.message_count
    ∧ (refresh_user_nickname members u).history = u.history
    ∧ (refresh_user_nickname members u).roles = u.roles := by
  unfold refresh_user_nickname
  cases members_dict_find members u.user_id with
  | none => exact ⟨rfl, rfl, rfl, rfl⟩
  | some m =>
    dsimp only
    split_ifs <;> exact ⟨rfl, rfl, rfl, rfl⟩

theorem refresh_user_nickname_cmd_frame (members : List Member) (u : UserData) :
    (refresh_user_nickname_cmd members u).user_id = u.user_id
    ∧ (refresh_user_nickname_cmd members u).message_count = u.message_count
    ∧ (refresh_user_nickname_cmd members u).history = u.history
    ∧ (refresh_user_nickname_cmd members u).roles = u.roles := by
  unfold refresh_user_nickname_cmd
  cases member_nickname_map_find members u.user_id with
  | none => exact ⟨rfl, rfl, rfl, rfl⟩
  | some dn =>
    dsimp only
    split_ifs <;> exact ⟨rfl, rfl, rfl, rfl⟩

theorem refresh_user_nickname_idem (members : List Member) (u : UserData) :
    refresh_user_nickname members (refresh_user_nickname members u)
      = refresh_user_nickname members u := by
  rcases hf : members_dict_find members u.user_id with _ | m
  · have h1 : refresh_user_nickname members u = u := by
      unfold refresh_user_nickname
      rw [hf]
    rw [h1]
    exact h1
  · by_cases hcond : get_display_name_from_member m ≠ ""
        ∧ u.nickname ≠ get_display_name_from_member m
    · have h1 : refresh_user_nickname members u
          = { u with nickname := get_display_name_from_member m } := by
        unfold refresh_user_nickname
        rw [hf]
        dsimp only
        rw [if_pos hcond]
      rw [h1]
      have hf2 : members_dict_find members
          ({ u with nickname := get_display_name_from_member m } : UserData).user_id
          = some m := hf
      unfold refresh_user_nickname
      rw [hf2]
      dsimp only
      rw [if_neg]
      intro hc
      exact hc.2 rfl
    · have h1 : refresh_user_nickname members u = u := by
        unfold refresh_user_nickname
        rw [hf]
        dsimp only
        rw [if_neg hcond]
      rw [h1]
      exact h1

theorem refresh_user_nickname_cmd_idem (members : List Member) (u : UserData) :
    refresh_user_nickname_cmd members (refresh_user_nickname_cmd members u)
      = refresh_user_nickname_cmd members u := by
  rcases hf : member_nickname_map_find members u.user_id with _ | dn
  · have h1 : refresh_user_nickname_cmd members u = u := by
      unfold refresh_user_nickname_cmd
      rw [hf]
    rw [h1]
    exact h1
  · by_cases hcond : u.nickname ≠ dn
    · have h1 : refresh_user_nickname_cmd members u = { u with nickname := dn } := by
        unfold refresh_user_nickname_cmd
        rw [hf]
        dsimp only
        rw [if_pos hcond]
      rw [h1]
      have hf2 : member_nickname_map_find members
          ({ u with nickname := dn } : UserData).user_id = some dn := hf
      unfold refresh_user_nickname_cmd
      rw [hf2]
      dsimp only
      rw [if_neg]
      intro hc
      exact hc rfl
    · have h1 : refresh_user_nickname_cmd members u = u := by
        unfold refresh_user_nickname_cmd
        rw [hf]
        dsimp only
        rw [if_neg hcond]
      rw [h1]
      exact h1

theorem refresh_pair_idem {f : UserData → UserData}
    (hidem : ∀ u, f (f u) = f u) (gd : List UserData) :
    (gd.map f).map f = gd.map f
    ∧ (gd.map f).countP (fun u => decide (f u ≠ u)) = 0 := by
  constructor
  · rw [List.map_map]
    exact List.map_congr_left (fun u _ => hidem u)
  · rw [List.countP_eq_zero]
    intro v hv
    rcases List.mem_map.mp hv with ⟨u, _, rfl⟩
    simp [hidem u]

/-- C9: both nickname-refresh reconciliations are idempotent — a second run
on the refreshed records (same member data, no intervening messages)
returns the records unchanged with `updated_count = 0` — and the refresh
only ever overwrites `nickname`, never `user_id`, `message_count`,
`history` or `roles`. -/
theorem claim_C9_refresh_idempotent (membersInfo : Option (List Member))
    (gd : List UserData) :
    (refresh_nickname_cache_for_ranking membersInfo
        (refresh_nickname_cache_for_ranking membersInfo gd).1
      = ((refresh_nickname_cache_for_ranking membersInfo gd).1, 0))
    ∧ ((refresh_nickname_cache_for_ranking membersInfo gd).1.map
          (fun u => (u.user_id, u.message_count, u.history, u.roles))
        = gd.map (fun u => (u.user_id, u.message_count, u.history, u.roles)))
    ∧ (refresh_group_members_cache_records membersInfo
        (refresh_group_members_cache_records membersInfo gd).1
      = ((refresh_group_members_cache_records membersInfo gd).1, 0))
    ∧ ((refresh_group_members_cache_records membersInfo gd).1.map
          (fun u => (u.user_id, u.message_count, u.history, u.roles))
        = gd.map (fun u => (u.user_id, u.message_count, u.history, u.roles))) := by
  rcases membersInfo with _ | members
  · exact ⟨rfl, rfl, rfl, rfl⟩
  · by_cases hnil : members = []
    · subst hnil
      exact ⟨rfl, rfl, rfl, rfl⟩
    · have hframe : ∀ u : UserData,
          ((refresh_user_nickname members u).user_id,
            (refresh_user_nickname members u).message_count,
            (refresh_user_nickname members u).history,
            (refresh_user_nickname members u).roles)
          = (u.user_id, u.message_count, u.history, u.roles) := by
        intro u
        obtain ⟨e1, e2, e3, e4⟩ := refresh_user_nickname_frame members u
        rw [e1, e2, e3, e4]
      have hframe' : ∀ u : UserData,
          ((refresh_user_nickname_cmd members u).user_id,
            (refresh_user_nickname_cmd members u).message_count,
            (refresh_user_nickname_cmd members u).history,
            (refresh_user_nickname_cmd members u).roles)
          = (u.user_id, u.message_count, u.history, u.roles) := by
        intro u
        obtain ⟨e1, e2, e3, e4⟩ := refresh_user_nickname_cmd_frame members u
        rw [e1, e2, e3, e4]
      obtain ⟨hmap, hcnt⟩ := refresh_pair_idem (refresh_user_nickname_idem members) gd
      obtain ⟨hmap', hcnt'⟩ := refresh_pair_idem (refresh_user_nickname_cmd_idem members) gd
      unfold refresh_nickname_cache_for_ranking refresh_group_members_cache_records
      simp only [hnil, if_false]
      refine ⟨?_, ?_, ?_, ?_⟩
      · simp only [hmap, hcnt]
      · rw [List.map_map]
        exact List.map_congr_left (fun u _ => hframe u)
      · simp only [hmap', hcnt']
      · rw [List.map_map]
        exact List.map_congr_left (fun u _ => hframe' u)

/-! ### Rank-data preparation (`_prepare_rank_data`) -/

/-- Embeds the data-flow core of `_prepare_rank_data` (main.py 1455-1512).
`groupData` is the store read (`none` models a store miss; the source's
`if not group_data` also sends an empty collection to `None`); a truthy
(non-empty) roles filter is applied and leaves `None` when nobody matches;
the nickname refresh runs over the fetched member list; an empty result of
the per-type filter becomes `None`; otherwise the pairs are sorted
descending by value.  The presentation outputs (config, title, group info)
carry no ranking data and are omitted. -/
def prepare_rank_data (blocked : List String) (today : Date)
    (groupData : Option (List UserData)) (rolesFilter : Option (List Int))
    (membersInfo : Option (List Member)) (rt : RankType) :
    Option (List (UserData × Nat)) :=
  match groupData with
  | none => none
  | some gd =>
    if gd = [] then none
    else
      match
        (match rolesFilter with
          | some rf =>
            if rf = [] then some gd
            else
              if gd.filter (roles_filter_keep rf) = [] then none
              else some (gd.filter (roles_filter_keep rf))
          | none => some gd) with
      | none => none
      | some gd1 =>
        if filter_data_by_rank_type blocked today
            (refresh_nickname_cache_for_ranking membersInfo gd1).1 rt = []
        then none
        else some (sort_by_value_desc (filter_data_by_rank_type blocked today
            (refresh_nickname_cache_for_ranking membersInfo gd1).1 rt))

/-- C7 counterexample: with a store that exists and holds one zero-activity
user, `_prepare_rank_data` returns `None` — not an empty list — and that is
exactly the value returned on a store miss, so the caller cannot tell the
two cases apart. -/
theorem claim_C7_counterexample :
    prepare_rank_data [] ⟨2024, 1, 15⟩ (some [⟨"10001", "alice", 0, [], []⟩])
        none none RankType.TOTAL = none
    ∧ prepare_rank_data [] ⟨2024, 1, 15⟩ none none none RankType.TOTAL = none
    ∧ prepare_rank_data [] ⟨2024, 1, 15⟩ (some [⟨"10001", "alice", 0, [], []⟩])
        none none RankType.TOTAL ≠ some [] := by
  refine ⟨rfl, rfl, ?_⟩
  decide

/-- C7 amended: when the group's store exists (and is non-empty) but no
user qualifies for the requested rank, `_prepare_rank_data` returns `None`
— the very sentinel it returns on a store miss — so the two outcomes are
indistinguishable to the caller; neither is an error. -/
theorem claim_C7_empty_rank_returns_none (blocked : List String) (today : Date)
    (gd : List UserData) (membersInfo : Option (List Member)) (rt : RankType)
    (hne : gd ≠ [])
    (hempty : filter_data_by_rank_type blocked today
        (refresh_nickname_cache_for_ranking membersInfo gd).1 rt = []) :
    prepare_rank_data blocked today (some gd) none membersInfo rt = none
    ∧ prepare_rank_data blocked today none none membersInfo rt = none := by
  constructor
  · unfold prepare_rank_data
    dsimp only
    rw [if_neg hne]
    rw [if_pos hempty]
  · rfl

/-- Witness for the amended C7 at a concrete input: a one-user store whose
user has no activity. -/
theorem claim_C7_empty_rank_returns_none_witness :
    prepare_rank_data [] ⟨2024, 1, 16⟩ (some [⟨"10002", "bob", 0, [], []⟩])
        none none RankType.TOTAL = none
    ∧ prepare_rank_data [] ⟨2024, 1, 16⟩ none none none RankType.TOTAL = none :=
  claim_C7_empty_rank_returns_none [] ⟨2024, 1, 16⟩ [⟨"10002", "bob", 0, [], []⟩]
    none RankType.TOTAL (by decide) (by decide)

/-! ### Unified nickname resolution (`_get_user_nickname_unified`) -/

/-- Python truthiness of an optional string: `None` and `""` are falsy. -/
def truthy_str : Option String → Option String
  | some s => if s = "" then none else some s
  | none => none

/-- Embeds `_get_from_nickname_cache` (main.py 1114-1126): plain TTL-cache
lookup under the key `"nickname_" + user_id`; the cache is modelled as a
lookup function. -/
def get_from_nickname_cache (nicknameCache : String → Option String)
    (uid : String) : Option String :=
  nicknameCache ("nickname_" ++ uid)

/-- Embeds `_get_from_dict_cache` (main.py 1128-1142): consult the member
dictionary cached under `"group_members_dict_" + group_id`, and return the
member's display name when it is truthy. -/
def get_from_dict_cache (dictCache : String → Option (List Member))
    (gid uid : String) : Option String :=
  match dictCache ("group_members_dict_" ++ gid) with
  | some members =>
    match members_dict_find members uid with
    | some m =>
      if get_display_name_from_member m = "" then none
      else some (get_display_name_from_member m)
    | none => none
  | none => none

/-- Embeds `_fetch_and_cache_from_api` (main.py 1144-1170): on a successful
member-list fetch, rebuild the dictionary and extract the display name; a
fetch failure of any kind (`none`) degrades to nothing. -/
def fetch_and_cache_from_api (apiResult : Option (List Member))
    (uid : String) : Option String :=
  match apiResult with
  | some members =>
    match members_dict_find members uid with
    | some m =>
      if get_display_name_from_member m = "" then none
      else some (get_display_name_from_member m)
    | none => none
  | none => none

/-- Embeds `_get_user_nickname_unified` (main.py 1079-1112): nickname cache
first, then the member-dictionary cache, then the remote fetch, and the
synthesized placeholder as the final step. -/
def get_user_nickname_unified (nicknameCache : String → Option String)
    (dictCache : String → Option (List Member)) (apiResult : Option (List Member))
    (gid uid : String) : String :=
  match truthy_str (get_from_nickname_cache nicknameCache uid) with
  | some s => s
  | none =>
    match truthy_str (get_from_dict_cache dictCache gid uid) with
    | some s => s
    | none =>
      match truthy_str (fetch_and_cache_from_api apiResult uid) with
      | some s => s
      | none => "用户" ++ uid

/-! ### Message recording (`_record_message_stats`) -/

/-- Modelled from the spec: the `Validators` live in the absent
`utils/validators.py`.  §3/§7 and `utils/constants.py` give the policy:
group ids are 5-32 characters long. -/
def validate_group_id (g : String) : Bool :=
  decide (5 ≤ g.length ∧ g.length ≤ 32)

/-- Modelled from the spec: user ids are 1-20 characters long
(`utils/constants.py`). -/
def validate_user_id (u : String) : Bool :=
  decide (1 ≤ u.length ∧ u.length ≤ 20)

/-- The `DANGEROUS_CHARS` list of `utils/constants.py`. -/
def dangerous_chars : List Char :=
  ['<', '>', ':', '"', '|', '?', '*', '\x00', '\x0a', '\x0d']

/-- Modelled from the spec: nicknames are capped at 50 characters
(`utils/constants.py`) and must avoid the dangerous characters (§7). -/
def validate_nickname (n : String) : Bool :=
  decide (n.length ≤ 50) && n.data.all (fun c => decide (c ∉ dangerous_chars))

/-- Embeds `_validate_message_data` (main.py 647-670) over the modelled
validators: all three fields must pass; a failure raises and is caught by
`_record_message_stats`, which then skips recording. -/
def validate_message_data (gid uid nick : String) :
    Option (String × String × String) :=
  if validate_group_id gid && validate_user_id uid && validate_nickname nick
  then some (gid, uid, nick) else none

/-- The mutable state the recording path touches: the per-group store of
user records and the nickname TTL cache (both modelled as association
lists). -/
structure RecState where
  store : List (String × List UserData)
  nickCache : List (String × String)
deriving DecidableEq, Repr

def store_lookup (st : List (String × List UserData)) (gid : String) :
    Option (List UserData) :=
  (st.find? (fun p => decide (p.1 = gid))).map (fun p => p.2)

def store_set (st : List (String × List UserData)) (gid : String)
    (users : List UserData) : List (String × List UserData) :=
  match st with
  | [] => [(gid, users)]
  | p :: t => if p.1 = gid then (gid, users) :: t else p :: store_set t gid users

def cache_lookup (c : List (String × String)) (k : String) : Option String :=
  (c.find? (fun p => decide (p.1 = k))).map (fun p => p.2)

def cache_set (c : List (String × String)) (k v : String) :
    List (String × String) :=
  match c with
  | [] => [(k, v)]
  | p :: t => if p.1 = k then (k, v) :: t else p :: cache_set t k v

/-- Modelled from the spec (§4.1, the absent `utils/models.py`): find or
create today's bucket by calendar date — not by position — and increment
its count by one. -/
def bump_bucket (today : Date) : List MessageDate → List MessageDate
  | [] => [⟨today.year, today.month, today.day, 1⟩]
  | b :: t =>
    if b.toDate = today then ⟨b.year, b.month, b.day, b.count + 1⟩ :: t
    else b :: bump_bucket today t

/-- Modelled from the spec: `DataManager.update_user_message` lives in the
absent `utils/data_manager.py`.  Per §3/§4.1 it creates the user record on
the first observed message, bumps today's bucket and `message_count`, and
unconditionally overwrites `nickname` (and `roles` when provided). -/
def update_users_list (today : Date) (uid nick : String)
    (roles : Option (List Int)) : List UserData → List UserData
  | [] => [⟨uid, nick, 1, [⟨today.year, today.month, today.day, 1⟩], roles.getD []⟩]
  | u :: t =>
    if u.user_id = uid then
      ⟨u.user_id, nick, u.message_count + 1, bump_bucket today u.history,
        roles.getD u.roles⟩ :: t
    else u :: update_users_list today uid nick roles t

/-- Embeds `_process_message_stats` (main.py 672-727): run the data-manager
update, then refresh the nickname-cache entry when the observed nickname
differs from the cached one. -/
def process_message_stats (today : Date) (st : RecState) (gid uid nick : String)
    (roles : Option (List Int)) : RecState :=
  ⟨store_set st.store gid
      (update_users_list today uid nick roles ((store_lookup st.store gid).getD [])),
   if cache_lookup st.nickCache ("nickname_" ++ uid) ≠ some nick
   then cache_set st.nickCache ("nickname_" ++ uid) nick
   else st.nickCache⟩

/-- Python's `not nickname or not nickname.strip()`: the nickname is falsy
or whitespace-only. -/
def is_blank_str (s : String) : Bool :=
  s.data.all (fun c => c.isWhitespace)

/-- Embeds `_record_message_stats` (main.py 576-645): step 0 returns
immediately for a blocked user; step 1 substitutes the placeholder for a
falsy or whitespace-only nickname; step 2 validates (a validation error is
caught and recording is skipped); step 3 performs the update. -/
def record_message_stats (blocked : List String) (today : Date) (st : RecState)
    (gid uid nick : String) (roles : Option (List Int)) : RecState :=
  if is_blocked_user blocked uid then st
  else
    match validate_message_data gid uid
        (if is_blank_str nick then "用户" ++ uid else nick) with
    | none => st
    | some v => process_message_stats today st v.1 v.2.1 v.2.2 roles

theorem is_blank_str_placeholder (uid : String) :
    is_blank_str ("用户" ++ uid) = false := by
  unfold is_blank_str
  have hdata : (("用户" ++ uid : String)).data = ("用户" : String).data ++ uid.data :=
    String.data_append ..
  rw [hdata, List.all_append]
  have hhead : (("用户" : String)).data.all (fun c => c.isWhitespace) = false := by
    decide
  rw [hhead]
  rfl

/-- C10: a message from a user on the blocked list is never recorded: the
recording path returns before validation and before any store or cache
update, leaving the whole state unchanged. -/
theorem claim_C10_blocked_user_is_noop (blocked : List String) (today : Date)
    (st : RecState) (gid uid nick : String) (roles : Option (List Int))
    (h : uid ∈ blocked) :
    record_message_stats blocked today st gid uid nick roles = st := by
  have hc : is_blocked_user blocked uid = true := by
    unfold is_blocked_user
    exact List.elem_iff.mpr h
  unfold record_message_stats
  rw [if_pos hc]

/-- Witness for C10 at a concrete populated state. -/
theorem claim_C10_blocked_user_is_noop_witness :
    record_message_stats ["9"] ⟨2024, 1, 15⟩
        ⟨[("12345", [⟨"1", "A", 5, [⟨2024, 1, 15, 2⟩], []⟩])], [("nickname_1", "A")]⟩
        "12345" "9" "evil" none
      = ⟨[("12345", [⟨"1", "A", 5, [⟨2024, 1, 15, 2⟩], []⟩])], [("nickname_1", "A")]⟩ :=
  claim_C10_blocked_user_is_noop ["9"] ⟨2024, 1, 15⟩
    ⟨[("12345", [⟨"1", "A", 5, [⟨2024, 1, 15, 2⟩], []⟩])], [("nickname_1", "A")]⟩
    "12345" "9" "evil" none (by decide)

/-- C8 counterexample: when every tier misses and the fetch fails, the
fallback nickname is `"用户" + user_id` (the Chinese word for "user"), not
the ASCII string `"user" + user_id` the claim states. -/
theorem claim_C8_counterexample :
    get_user_nickname_unified (fun _ => none) (fun _ => none) none "11111" "42"
      = "用户42"
    ∧ ("用户42" : String) ≠ "user42" := by
  constructor
  · rfl
  · decide

/-- C8 amended: when the nickname cache misses, the member-dictionary cache
misses and the remote fetch fails, nickname resolution returns the
synthesized placeholder `"用户" + user_id` and no error; and a missing
(blank) nickname never blocks recording — recording with a blank nickname
behaves exactly as recording with the placeholder. -/
theorem claim_C8_nickname_fallback (nc : String → Option String)
    (dc : String → Option (List Member)) (api : Option (List Member))
    (gid uid : String)
    (h1 : nc ("nickname_" ++ uid) = none)
    (h2 : dc ("group_members_dict_" ++ gid) = none)
    (h3 : api = none) :
    get_user_nickname_unified nc dc api gid uid = "用户" ++ uid
    ∧ ∀ (blocked : List String) (today : Date) (st : RecState) (g : String)
        (roles : Option (List Int)),
        record_message_stats blocked today st g uid "" roles
          = record_message_stats blocked today st g uid ("用户" ++ uid) roles := by
  constructor
  · unfold get_user_nickname_unified get_from_nickname_cache get_from_dict_cache
      fetch_and_cache_from_api
    rw [h1, h2, h3]
    rfl
  · intro blocked today st g roles
    unfold record_message_stats
    by_cases hb : is_blocked_user blocked uid = true
    · rw [if_pos hb, if_pos hb]
    · rw [if_neg hb, if_neg hb]
      have e1 : is_blank_str "" = true := rfl
      have e2 := is_blank_str_placeholder uid
      rw [e1, e2]
      simp

/-- Witness for the amended C8 at concrete all-miss caches. -/
theorem claim_C8_nickname_fallback_witness :
    get_user_nickname_unified (fun _ => none) (fun _ => none) none "11111" "77"
      = "用户77" :=
  (claim_C8_nickname_fallback (fun _ => none) (fun _ => none) none "11111" "77"
    rfl rfl rfl).1

end MsgStats
